import Mathlib

/-!
# Verification of the DataView builtins (builtins-dataview.cc)

A shallow embedding of the DataView constructor and accessor engine from
src/builtins/builtins-dataview.cc. Buffers are lists of bytes together with
a detachment (neutering) flag; size_t arithmetic is modelled as natural
number arithmetic modulo 2^64; error paths are modelled with Except over a
structured error type mirroring the MessageTemplate constants used by the
source. The external conversion protocols (Object::ToIndex, Object::ToNumber,
BigInt::FromObject, DoubleToInt32/DoubleToUint32, the C++ floating-point
casts) are not part of this file of the repository; where a claim depends on
them they are modelled from the spec and marked as such.
-/

/-- An ArrayBuffer as observed by this file: its backing store (one natural
number per byte) and the neutering (detachment) flag. The current byte
length is the length of the backing store. -/
structure ArrayBuffer where
  backing_store : List Nat
  was_neutered : Bool
deriving DecidableEq

/-- JSArrayBuffer byte_length: the current length of the backing store. -/
def ArrayBuffer.byte_length (b : ArrayBuffer) : Nat :=
  b.backing_store.length

/-- A JSDataView: byte offset and byte length recorded at construction.
The viewed buffer is passed separately to every operation, mirroring the
back-reference the source object holds. -/
structure JSDataView where
  byte_offset : Nat
  byte_length : Nat
deriving DecidableEq

/-- The message templates used by builtins-dataview.cc. -/
inductive MessageTemplate where
  | kDataViewNotArrayBuffer
  | kInvalidOffset
  | kInvalidDataViewLength
  | kInvalidDataViewAccessorOffset
  | kDetachedOperation (operation : String)
deriving DecidableEq

/-- The two error kinds raised by this file of the source. -/
inductive JSError where
  | typeError (m : MessageTemplate)
  | rangeError (m : MessageTemplate)
deriving DecidableEq

deriving instance DecidableEq for Except

/-- ES #sec-dataview-constructor, steps 4-14, after the buffer type check
(step 2-3) and after ToIndex conversion of the offset and (when present) the
length candidates. None of the construction path consults was_neutered:
step 5 of the governing spec is deliberately skipped in the source (see the
comment at lines 49-50). The buffer is only read, never modified. -/
def DataViewConstructor (buffer : ArrayBuffer) (offset : Nat)
    (byte_length : Option Nat) : Except JSError JSDataView :=
  if offset > buffer.byte_length then
    .error (.rangeError .kInvalidOffset)
  else
    match byte_length with
    | none => .ok ⟨offset, buffer.byte_length - offset⟩
    | some view_byte_length =>
      if offset + view_byte_length > buffer.byte_length then
        .error (.rangeError .kInvalidDataViewLength)
      else
        .ok ⟨offset, view_byte_length⟩

/-- ES6 24.2.4.2 get DataView.prototype.byteLength: returns the recorded
byte_length field without consulting the buffer (the source notes the
missing neutering check in a TODO). The buffer argument mirrors the access
the builtin has through the receiver; it is not used. -/
def DataViewPrototypeGetByteLength (buffer : ArrayBuffer)
    (data_view : JSDataView) : Nat :=
  data_view.byte_length

/-- ES6 24.2.4.3 get DataView.prototype.byteOffset: returns the recorded
byte_offset field without consulting the buffer. -/
def DataViewPrototypeGetByteOffset (buffer : ArrayBuffer)
    (data_view : JSDataView) : Nat :=
  data_view.byte_offset

/-- NeedToFlipBytes: the requested byte order differs from the host order.
The host order is fixed by the V8_TARGET_LITTLE_ENDIAN build configuration;
it is threaded here as the boolean parameter host_little_endian. -/
def NeedToFlipBytes (host_little_endian : Bool) (is_little_endian : Bool) :
    Bool :=
  if host_little_endian then !is_little_endian else is_little_endian

/-- CopyBytes: straight byte-for-byte copy of the n source bytes. -/
def CopyBytes (source : List Nat) : List Nat :=
  source

/-- FlipBytes: copy of the n source bytes in reversed order. -/
def FlipBytes (source : List Nat) : List Nat :=
  source.reverse

/-- Read n bytes from the store starting at byte off (missing bytes read
as 0; the source guards real accesses with the bounds check and a DCHECK). -/
def readBytes (store : List Nat) : Nat → Nat → List Nat
  | _, 0 => []
  | off, n + 1 => store.getD off 0 :: readBytes store (off + 1) n

/-- Overwrite bytes of the store starting at byte off with the data bytes;
writes past the end of the store are dropped (the source guards real
accesses with the bounds check and a DCHECK). -/
def writeBytes : List Nat → Nat → List Nat → List Nat
  | store, _, [] => store
  | [], _, _ => []
  | _ :: store, 0, d :: data => d :: writeBytes store 0 data
  | b :: store, o + 1, data => b :: writeBytes store o data

/-- The little-endian byte serialization of an n-byte value. -/
def leBytes : Nat → Nat → List Nat
  | 0, _ => []
  | n + 1, p => p % 256 :: leBytes n (p / 256)

/-- The value of a little-endian byte list. -/
def leVal : List Nat → Nat
  | [] => 0
  | b :: bs => b + 256 * leVal bs

/-- The native in-memory byte layout of an n-byte value, for the given host
byte order (this models the union { T data; uint8_t bytes[sizeof(T)] }). -/
def nativeOfPattern (host_little_endian : Bool) (n p : Nat) : List Nat :=
  if host_little_endian then leBytes n p else (leBytes n p).reverse

/-- The n-byte value stored in a native in-memory byte layout, for the given
host byte order (the reading direction of the same union). -/
def patternOfNative (host_little_endian : Bool) (bytes : List Nat) : Nat :=
  if host_little_endian then leVal bytes else leVal bytes.reverse

/-- ES6 24.2.1.1 GetViewValue, after ToIndex conversion of the request
index, returning the raw size-byte pattern read (the per-kind boxing into a
result value is applied on top by dataViewGet). Mirrors lines 188-218 of the
source: neutering check, then the size_t bounds check with its explicit
overflow guard, then the flip-or-copy from the backing store. -/
def GetViewValuePattern (host_little_endian : Bool) (buffer : ArrayBuffer)
    (data_view : JSDataView) (get_index : Nat) (is_little_endian : Bool)
    (method : String) (size : Nat) : Except JSError Nat :=
  if buffer.was_neutered then
    .error (.typeError (.kDetachedOperation method))
  else if (get_index + size) % 2 ^ 64 > data_view.byte_length ∨
      (get_index + size) % 2 ^ 64 < get_index then
    .error (.rangeError .kInvalidDataViewAccessorOffset)
  else
    let buffer_offset := data_view.byte_offset + get_index
    let source := readBytes buffer.backing_store buffer_offset size
    let bytes :=
      if NeedToFlipBytes host_little_endian is_little_endian then
        FlipBytes source
      else
        CopyBytes source
    .ok (patternOfNative host_little_endian bytes)

/-- ES6 24.2.1.2 SetViewValue, after ToIndex conversion of the request index
and after DataViewConvertInput succeeded on the value; pattern is the
size-byte bit pattern produced by DataViewConvertValue. Mirrors lines
312-343 of the source: neutering check, the same bounds check as the read
path, then the flip-or-copy into the backing store. -/
def SetViewValueCore (host_little_endian : Bool) (buffer : ArrayBuffer)
    (data_view : JSDataView) (get_index : Nat) (is_little_endian : Bool)
    (pattern : Nat) (size : Nat) (method : String) :
    Except JSError ArrayBuffer :=
  if buffer.was_neutered then
    .error (.typeError (.kDetachedOperation method))
  else if (get_index + size) % 2 ^ 64 > data_view.byte_length ∨
      (get_index + size) % 2 ^ 64 < get_index then
    .error (.rangeError .kInvalidDataViewAccessorOffset)
  else
    let bytes := nativeOfPattern host_little_endian size pattern
    let target :=
      if NeedToFlipBytes host_little_endian is_little_endian then
        FlipBytes bytes
      else
        CopyBytes bytes
    .ok { buffer with
          backing_store :=
            writeBytes buffer.backing_store
              (data_view.byte_offset + get_index) target }

/-- Modelled from the spec: the result of the external numeric conversion
protocol (Object::ToNumber, src/conversions.h, not under src here), as seen
by the integer accessor kinds: a double is either non-finite (NaN or an
infinity) or carries a finite numeric value, modelled as a rational. -/
inductive JSNumber where
  | nonFinite : JSNumber
  | finite : ℚ → JSNumber
deriving DecidableEq

/-- Truncation of a rational toward zero, the first step of the
IEEE-to-integer conversions. -/
def truncRat (q : ℚ) : Int :=
  if 0 ≤ q then ⌊q⌋ else ⌈q⌉

/-- Modelled from the spec: DoubleToInt32 (src/conversions.h, not under src
here): non-finite values map to 0; finite values are truncated and reduced
modulo 2^32 with sign reinterpretation. -/
def DoubleToInt32 : JSNumber → Int
  | .nonFinite => 0
  | .finite q =>
    let m := truncRat q % 2 ^ 32
    if m < 2 ^ 31 then m else m - 2 ^ 32

/-- Modelled from the spec: DoubleToUint32 (src/conversions.h, not under src
here): non-finite values map to 0; finite values are truncated and reduced
modulo 2^32. -/
def DoubleToUint32 : JSNumber → Nat
  | .nonFinite => 0
  | .finite q => (truncRat q % 2 ^ 32).toNat

/-- The low w bits of the two's-complement representation of an integer,
as an unsigned w-bit pattern. -/
def toUnsigned (w : Nat) (i : Int) : Nat :=
  (i % (2 ^ w : Int)).toNat

/-- The signed value of an unsigned w-bit pattern read as two's complement. -/
def toSigned (w : Nat) (p : Nat) : Int :=
  if p < 2 ^ (w - 1) then (p : Int) else (p : Int) - 2 ^ w

/-- Right shift by k bits with round-to-nearest, ties to even. -/
def rshiftRoundHalfEven (m k : Nat) : Nat :=
  if k = 0 then m
  else
    let q := m / 2 ^ k
    let r := m % 2 ^ k
    let half := 2 ^ (k - 1)
    if r > half then q + 1
    else if r < half then q
    else if q % 2 = 1 then q + 1 else q

/-- Modelled from the spec: the C++ static_cast from double to float used by
DataViewConvertValue for the float32 kind, on IEEE-754 bit patterns: round
the double to the nearest representable single-precision value, ties to
even, with overflow to infinity and gradual underflow to subnormals. -/
def roundF64toF32Raw (x : Nat) : Nat :=
  let s : Nat := x / 2 ^ 63 % 2
  let e : Nat := x / 2 ^ 52 % 2 ^ 11
  let m : Nat := x % 2 ^ 52
  if e = 2047 then
    if m = 0 then s * 2 ^ 31 + 255 * 2 ^ 23
    else s * 2 ^ 31 + 255 * 2 ^ 23 + 2 ^ 22
  else
    let M := if e = 0 then m else 2 ^ 52 + m
    if M = 0 then s * 2 ^ 31
    else
      let E : Int := (if e = 0 then 1 else (e : Int)) - 1075
      let b : Int := (Nat.log2 M : Int) + E
      let ulpExp : Int := if -126 ≤ b then b - 23 else -149
      let k : Int := ulpExp - E
      let S :=
        if k ≤ 0 then M * 2 ^ (-k).toNat
        else rshiftRoundHalfEven M k.toNat
      let S' := if -126 ≤ b ∧ S = 2 ^ 24 then 2 ^ 23 else S
      let ulpExp' := if -126 ≤ b ∧ S = 2 ^ 24 then ulpExp + 1 else ulpExp
      if S' = 0 then s * 2 ^ 31
      else if S' < 2 ^ 23 then s * 2 ^ 31 + S'
      else
        let expField : Int := ulpExp' + 150
        if 255 ≤ expField then s * 2 ^ 31 + 255 * 2 ^ 23
        else s * 2 ^ 31 + expField.toNat * 2 ^ 23 + (S' - 2 ^ 23)

/-- Modelled from the spec: the cast result as a 32-bit pattern. -/
def roundF64toF32 (x : Nat) : Nat :=
  roundF64toF32Raw x % 2 ^ 32

/-- Modelled from the spec: the exact widening from a float to a double that
happens when a float32 read is boxed as a number (AllocateResult calls
NewNumber on the float), on IEEE-754 bit patterns. -/
def widenF32toF64 (x : Nat) : Nat :=
  let s : Nat := x / 2 ^ 31 % 2
  let e : Nat := x / 2 ^ 23 % 2 ^ 8
  let m : Nat := x % 2 ^ 23
  if e = 255 then
    if m = 0 then s * 2 ^ 63 + 2047 * 2 ^ 52
    else s * 2 ^ 63 + 2047 * 2 ^ 52 + m * 2 ^ 29
  else if e = 0 then
    if m = 0 then s * 2 ^ 63
    else
      let b := Nat.log2 m
      s * 2 ^ 63 + (b + 874) * 2 ^ 52 + (m - 2 ^ b) * 2 ^ (52 - b)
  else
    s * 2 ^ 63 + (e + 896) * 2 ^ 52 + m * 2 ^ 29

/-- The ten numeric kinds instantiated by the DATA_VIEW_PROTOTYPE_GET and
DATA_VIEW_PROTOTYPE_SET macros. -/
inductive DataViewKind where
  | Int8 | Uint8 | Int16 | Uint16 | Int32 | Uint32
  | Float32 | Float64 | BigInt64 | BigUint64
deriving DecidableEq

/-- sizeof(T) for each instantiated kind. -/
def DataViewKind.size : DataViewKind → Nat
  | .Int8 => 1
  | .Uint8 => 1
  | .Int16 => 2
  | .Uint16 => 2
  | .Int32 => 4
  | .Uint32 => 4
  | .Float32 => 4
  | .Float64 => 8
  | .BigInt64 => 8
  | .BigUint64 => 8

/-- The #Type token of each macro instantiation, used to build method
name strings. -/
def DataViewKind.typeName : DataViewKind → String
  | .Int8 => "Int8"
  | .Uint8 => "Uint8"
  | .Int16 => "Int16"
  | .Uint16 => "Uint16"
  | .Int32 => "Int32"
  | .Uint32 => "Uint32"
  | .Float32 => "Float32"
  | .Float64 => "Float64"
  | .BigInt64 => "BigInt64"
  | .BigUint64 => "BigUint64"

/-- The Lean type modelling the converted input value handed to
DataViewConvertValue for each kind: the result of Object::ToNumber for the
double-based kinds (a JSNumber for the integer kinds, a 64-bit IEEE bit
pattern for the float kinds) and of BigInt::FromObject for the 64-bit
big-integer kinds (an arbitrary-precision integer). -/
@[reducible] def KindInput : DataViewKind → Type
  | .Float32 => Nat
  | .Float64 => Nat
  | .BigInt64 => Int
  | .BigUint64 => Int
  | _ => JSNumber

/-- The Lean type modelling the value produced by a read of each kind: the
exact integer value of the boxed number for the integer kinds, the IEEE
bit pattern of the boxed double for the float kinds, and the exact
big-integer for the 64-bit kinds. -/
@[reducible] def KindOutput : DataViewKind → Type
  | .Int8 => Int
  | .Int16 => Int
  | .Int32 => Int
  | .BigInt64 => Int
  | _ => Nat

/-- DataViewConvertValue, lines 239-290 of the source, expressed as the
unsigned sizeof(T)*8-bit pattern whose native byte layout the union write
v.data = DataViewConvertValue(value) produces. The 8/16-bit kinds narrow
through DoubleToInt32/DoubleToUint32 exactly as the source casts do; the
float64 kind stores the double bit pattern as-is; the 64-bit kinds take the
low 64 bits of the two's-complement representation (BigInt AsInt64 and
AsUint64 agree on that pattern). -/
def DataViewConvertValue : (k : DataViewKind) → KindInput k → Nat
  | .Int8, x => toUnsigned 8 (DoubleToInt32 x)
  | .Uint8, x => DoubleToUint32 x % 2 ^ 8
  | .Int16, x => toUnsigned 16 (DoubleToInt32 x)
  | .Uint16, x => DoubleToUint32 x % 2 ^ 16
  | .Int32, x => toUnsigned 32 (DoubleToInt32 x)
  | .Uint32, x => DoubleToUint32 x
  | .Float32, x => roundF64toF32 x
  | .Float64, x => x % 2 ^ 64
  | .BigInt64, x => toUnsigned 64 x
  | .BigUint64, x => toUnsigned 64 x

/-- AllocateResult, lines 157-170 of the source, composed with the union
read v.data after a get: the integer kinds box the two's-complement reading
of the pattern as an exact number; the float32 kind boxes the float value
(modelled by the exact widening of its bit pattern to a double pattern);
float64 boxes the pattern as-is; the 64-bit kinds build a BigInt from the
signed or unsigned reading of the 64-bit pattern. -/
def AllocateResult : (k : DataViewKind) → Nat → KindOutput k
  | .Int8, p => toSigned 8 p
  | .Uint8, p => p
  | .Int16, p => toSigned 16 p
  | .Uint16, p => p
  | .Int32, p => toSigned 32 p
  | .Uint32, p => p
  | .Float32, p => widenF32toF64 p
  | .Float64, p => p
  | .BigInt64, p => toSigned 64 p
  | .BigUint64, p => p

/-- GetViewValue instantiated at a kind: read the pattern and box it. -/
def dataViewGet (k : DataViewKind) (host_little_endian : Bool)
    (buffer : ArrayBuffer) (data_view : JSDataView) (get_index : Nat)
    (is_little_endian : Bool) (method : String) :
    Except JSError (KindOutput k) :=
  (GetViewValuePattern host_little_endian buffer data_view get_index
      is_little_endian method k.size).map (AllocateResult k)

/-- SetViewValue instantiated at a kind, after DataViewConvertInput
succeeded on the value. -/
def dataViewSet (k : DataViewKind) (host_little_endian : Bool)
    (buffer : ArrayBuffer) (data_view : JSDataView) (get_index : Nat)
    (is_little_endian : Bool) (value : KindInput k) (method : String) :
    Except JSError ArrayBuffer :=
  SetViewValueCore host_little_endian buffer data_view get_index
    is_little_endian (DataViewConvertValue k value) k.size method

/-- The DATA_VIEW_PROTOTYPE_GET macro body, lines 348-361: each getter
builtin calls GetViewValue with the method string
"DataView.prototype.get" #Type. -/
def DataViewPrototypeGet (k : DataViewKind) (host_little_endian : Bool)
    (buffer : ArrayBuffer) (data_view : JSDataView) (byte_offset : Nat)
    (is_little_endian : Bool) : Except JSError (KindOutput k) :=
  dataViewGet k host_little_endian buffer data_view byte_offset
    is_little_endian ("DataView.prototype.get" ++ k.typeName)

/-- The DATA_VIEW_PROTOTYPE_SET macro body, lines 374-388: each setter
builtin calls SetViewValue with the method string
"DataView.prototype.get" #Type (the getter name, exactly as line 386 of
the source spells it). -/
def DataViewPrototypeSet (k : DataViewKind) (host_little_endian : Bool)
    (buffer : ArrayBuffer) (data_view : JSDataView) (byte_offset : Nat)
    (value : KindInput k) (is_little_endian : Bool) :
    Except JSError ArrayBuffer :=
  dataViewSet k host_little_endian buffer data_view byte_offset
    is_little_endian value ("DataView.prototype.get" ++ k.typeName)

/-- SetViewValue including the effectful DataViewConvertInput call (lines
304-305): the external conversion protocol is modelled as a state
transformer on an abstract effect state (a Nat) that may fail; it runs
right after the index conversion and strictly before the neutering and
bounds checks of SetViewValueCore. -/
def SetViewValueWithConversion {α : Type} (host_little_endian : Bool)
    (buffer : ArrayBuffer) (data_view : JSDataView) (get_index : Nat)
    (is_little_endian : Bool)
    (convertInput : Nat → Nat × Except JSError α) (convertValue : α → Nat)
    (size : Nat) (method : String) (s0 : Nat) :
    Nat × Except JSError ArrayBuffer :=
  match convertInput s0 with
  | (s1, .error e) => (s1, .error e)
  | (s1, .ok a) =>
    (s1, SetViewValueCore host_little_endian buffer data_view get_index
          is_little_endian (convertValue a) size method)

/-- SetViewValue including both effectful conversions, in source order
(lines 299-305): Object::ToIndex on the request index first, then
DataViewConvertInput on the value. -/
def SetViewValueTop {α : Type} (host_little_endian : Bool)
    (buffer : ArrayBuffer) (data_view : JSDataView)
    (toIndex : Nat → Nat × Except JSError Nat) (is_little_endian : Bool)
    (convertInput : Nat → Nat × Except JSError α) (convertValue : α → Nat)
    (size : Nat) (method : String) (s0 : Nat) :
    Nat × Except JSError ArrayBuffer :=
  match toIndex s0 with
  | (s1, .error e) => (s1, .error e)
  | (s1, .ok get_index) =>
    SetViewValueWithConversion host_little_endian buffer data_view get_index
      is_little_endian convertInput convertValue size method s1

/-! ## Byte-level lemmas -/

theorem leBytes_length (n : Nat) : ∀ p, (leBytes n p).length = n := by
  induction n with
  | zero => intro p; rfl
  | succ k ih => intro p; simp [leBytes, ih]

theorem leVal_leBytes (n : Nat) : ∀ p, p < 2 ^ (8 * n) → leVal (leBytes n p) = p := by
  induction n with
  | zero =>
    intro p hp
    simp only [Nat.mul_zero, pow_zero, Nat.lt_one_iff] at hp
    simp [leBytes, leVal, hp]
  | succ k ih =>
    intro p hp
    have hdiv : p / 256 < 2 ^ (8 * k) := by
      have h8 : 8 * (k + 1) = 8 * k + 8 := by ring
      rw [h8, pow_add] at hp
      rw [Nat.div_lt_iff_lt_mul (by norm_num : 0 < 256)]
      calc p < 2 ^ (8 * k) * 2 ^ 8 := hp
        _ = 2 ^ (8 * k) * 256 := by norm_num
    simp only [leBytes, leVal]
    rw [ih _ hdiv]
    omega

theorem nativeOfPattern_length (h : Bool) (n p : Nat) :
    (nativeOfPattern h n p).length = n := by
  cases h <;> simp [nativeOfPattern, leBytes_length]

theorem patternOfNative_nativeOfPattern (h : Bool) (n p : Nat)
    (hp : p < 2 ^ (8 * n)) :
    patternOfNative h (nativeOfPattern h n p) = p := by
  cases h <;> simp [patternOfNative, nativeOfPattern, leVal_leBytes n p hp]

theorem writeBytes_length (store : List Nat) :
    ∀ off data, (writeBytes store off data).length = store.length := by
  induction store with
  | nil => intro off data; cases data <;> simp [writeBytes]
  | cons b s ih =>
    intro off data
    cases data with
    | nil => simp [writeBytes]
    | cons d ds =>
      cases off with
      | zero => simp [writeBytes, ih]
      | succ o => simp [writeBytes, ih]

theorem writeBytes_getD (store : List Nat) :
    ∀ off data j, j < data.length → off + data.length ≤ store.length →
      (writeBytes store off data).getD (off + j) 0 = data.getD j 0 := by
  induction store with
  | nil =>
    intro off data j hj hlen
    simp only [List.length_nil] at hlen
    omega
  | cons b s ih =>
    intro off data j hj hlen
    cases data with
    | nil => simp at hj
    | cons d ds =>
      cases off with
      | zero =>
        cases j with
        | zero => simp [writeBytes]
        | succ j' =>
          simp only [writeBytes, Nat.zero_add, List.getD_cons_succ]
          have := ih 0 ds j' (by simpa using hj) (by simp at hlen ⊢; omega)
          simpa using this
      | succ o =>
        simp only [writeBytes]
        have hidx : o + 1 + j = (o + j) + 1 := by omega
        rw [hidx, List.getD_cons_succ]
        exact ih o (d :: ds) j hj (by simp at hlen ⊢; omega)

theorem readBytes_congr (l : List Nat) :
    ∀ (store : List Nat) (off : Nat),
      (∀ j, j < l.length → store.getD (off + j) 0 = l.getD j 0) →
      readBytes store off l.length = l := by
  induction l with
  | nil => intro store off _; rfl
  | cons d ds ih =>
    intro store off hpt
    simp only [List.length_cons, readBytes]
    have h0 : store.getD off 0 = d := by simpa using hpt 0 (by simp)
    have ht : readBytes store (off + 1) ds.length = ds := by
      apply ih store (off + 1)
      intro j hj
      have := hpt (j + 1) (by simp; omega)
      have hidx : off + (j + 1) = off + 1 + j := by omega
      rw [hidx] at this
      simpa using this
    rw [h0, ht]

theorem readBytes_writeBytes (store : List Nat) (off : Nat) (data : List Nat)
    (h : off + data.length ≤ store.length) :
    readBytes (writeBytes store off data) off data.length = data :=
  readBytes_congr data _ off
    (fun j hj => writeBytes_getD store off data j hj h)

/-! ## Bounds-check and access lemmas -/

/-- The size_t bounds test of lines 199-200 and 323-324 fires exactly when
the mathematical sum exceeds the view length or does not fit in size_t. -/
theorem boundsCheck_iff (i size L : Nat) (hi : i < 2 ^ 64) (hs : 0 < size)
    (hsz : size < 2 ^ 64) (hL : L < 2 ^ 64) :
    ((i + size) % 2 ^ 64 > L ∨ (i + size) % 2 ^ 64 < i) ↔
      (i + size > L ∨ 2 ^ 64 ≤ i + size) := by
  rcases Nat.lt_or_ge (i + size) (2 ^ 64) with h | h
  · rw [Nat.mod_eq_of_lt h]
    omega
  · have h2 : (i + size) % 2 ^ 64 = i + size - 2 ^ 64 := by
      rw [Nat.mod_eq_sub_mod h, Nat.mod_eq_of_lt (by omega)]
    rw [h2]
    omega

theorem GetViewValuePattern_ok (host le : Bool) (buffer : ArrayBuffer)
    (dv : JSDataView) (i : Nat) (m : String) (size : Nat)
    (hneut : buffer.was_neutered = false)
    (hbound : i + size ≤ dv.byte_length) (hL : dv.byte_length < 2 ^ 64) :
    GetViewValuePattern host buffer dv i le m size =
      .ok (patternOfNative host
        (if NeedToFlipBytes host le then
          FlipBytes (readBytes buffer.backing_store (dv.byte_offset + i) size)
        else
          CopyBytes (readBytes buffer.backing_store (dv.byte_offset + i) size))) := by
  have hmod : (i + size) % 2 ^ 64 = i + size := Nat.mod_eq_of_lt (by omega)
  have hnb : ¬((i + size) % 2 ^ 64 > dv.byte_length ∨
      (i + size) % 2 ^ 64 < i) := by
    rw [hmod]; omega
  simp only [GetViewValuePattern, hneut, Bool.false_eq_true, if_false, hnb]

theorem SetViewValueCore_ok (host le : Bool) (buffer : ArrayBuffer)
    (dv : JSDataView) (i pattern size : Nat) (m : String)
    (hneut : buffer.was_neutered = false)
    (hbound : i + size ≤ dv.byte_length) (hL : dv.byte_length < 2 ^ 64) :
    SetViewValueCore host buffer dv i le pattern size m =
      .ok { buffer with
            backing_store :=
              writeBytes buffer.backing_store (dv.byte_offset + i)
                (if NeedToFlipBytes host le then
                  FlipBytes (nativeOfPattern host size pattern)
                else
                  CopyBytes (nativeOfPattern host size pattern)) } := by
  have hmod : (i + size) % 2 ^ 64 = i + size := Nat.mod_eq_of_lt (by omega)
  have hnb : ¬((i + size) % 2 ^ 64 > dv.byte_length ∨
      (i + size) % 2 ^ 64 < i) := by
    rw [hmod]; omega
  simp only [SetViewValueCore, hneut, Bool.false_eq_true, if_false, hnb]

/-- Storage round trip: a successful write of a size-byte pattern followed
by a read at the same index with the same endianness flag recovers the
pattern exactly, on any host byte order. -/
theorem get_after_set (host le : Bool) (buffer : ArrayBuffer)
    (dv : JSDataView) (i pattern size : Nat) (m m' : String)
    (hneut : buffer.was_neutered = false)
    (hbound : i + size ≤ dv.byte_length)
    (hinv : dv.byte_offset + dv.byte_length ≤ buffer.byte_length)
    (hL : dv.byte_length < 2 ^ 64)
    (hp : pattern < 2 ^ (8 * size)) :
    ∃ buffer2, SetViewValueCore host buffer dv i le pattern size m = .ok buffer2 ∧
      GetViewValuePattern host buffer2 dv i le m' size = .ok pattern := by
  set target :=
    (if NeedToFlipBytes host le then
      FlipBytes (nativeOfPattern host size pattern)
    else
      CopyBytes (nativeOfPattern host size pattern)) with htarget
  have htlen : target.length = size := by
    rw [htarget]
    cases NeedToFlipBytes host le <;>
      simp [FlipBytes, CopyBytes, nativeOfPattern_length]
  refine ⟨_, SetViewValueCore_ok host le buffer dv i pattern size m hneut hbound hL, ?_⟩
  rw [← htarget]
  have hneut2 : ({ buffer with
      backing_store :=
        writeBytes buffer.backing_store (dv.byte_offset + i) target } :
      ArrayBuffer).was_neutered = false := hneut
  rw [GetViewValuePattern_ok host le _ dv i m' size hneut2 hbound hL]
  have hstore : dv.byte_offset + i + size ≤ buffer.backing_store.length := by
    have := hinv
    unfold ArrayBuffer.byte_length at this
    omega
  have hread : readBytes
      (writeBytes buffer.backing_store (dv.byte_offset + i) target)
      (dv.byte_offset + i) size = target := by
    conv_lhs => rw [← htlen]
    exact readBytes_writeBytes buffer.backing_store (dv.byte_offset + i) target
      (by rw [htlen]; exact hstore)
  simp only [hread]
  cases hf : NeedToFlipBytes host le <;>
    rw [htarget] <;>
    simp [hf, FlipBytes, CopyBytes,
      patternOfNative_nativeOfPattern host size pattern hp]

/-! ## Per-kind arithmetic lemmas -/

theorem kindSize_pos (k : DataViewKind) : 0 < k.size := by
  cases k <;> decide

theorem kindSize_le_eight (k : DataViewKind) : k.size ≤ 8 := by
  cases k <;> decide

theorem toUnsigned_lt (w : Nat) (i : Int) : toUnsigned w i < 2 ^ w := by
  unfold toUnsigned
  have hpos : (0 : Int) < (2 ^ w : Int) := by positivity
  have h1 : 0 ≤ i % (2 ^ w : Int) := Int.emod_nonneg i (ne_of_gt hpos)
  have h2 : i % (2 ^ w : Int) < (2 ^ w : Int) := Int.emod_lt_of_pos i hpos
  have hcast : ((2 ^ w : Nat) : Int) = (2 ^ w : Int) := by push_cast; ring
  omega

theorem roundF64toF32_lt (x : Nat) : roundF64toF32 x < 2 ^ 32 :=
  Nat.mod_lt _ (by norm_num)

/-- Every narrowed value fits in exactly sizeof(T)*8 bits. -/
theorem DataViewConvertValue_lt (k : DataViewKind) (x : KindInput k) :
    DataViewConvertValue k x < 2 ^ (8 * k.size) := by
  cases k with
  | Int8 => exact toUnsigned_lt 8 _
  | Uint8 => exact Nat.mod_lt _ (by norm_num)
  | Int16 => exact toUnsigned_lt 16 _
  | Uint16 => exact Nat.mod_lt _ (by norm_num)
  | Int32 => exact toUnsigned_lt 32 _
  | Uint32 =>
    cases x with
    | nonFinite => simp [DataViewConvertValue, DoubleToUint32, DataViewKind.size]
    | finite q =>
      show DoubleToUint32 (.finite q) < 2 ^ (8 * 4)
      unfold DoubleToUint32
      have := toUnsigned_lt 32 (truncRat q)
      unfold toUnsigned at this
      simpa using this
  | Float32 => exact roundF64toF32_lt x
  | Float64 => exact Nat.mod_lt _ (by norm_num)
  | BigInt64 => exact toUnsigned_lt 64 _
  | BigUint64 => exact toUnsigned_lt 64 _

/-- DoubleToInt32 agrees with plain truncation on every divisor of 2^32:
the wrap to [-2^31, 2^31) never changes the low-order bits. -/
theorem DoubleToInt32_emod (q : ℚ) (w : Nat) (hw : w ≤ 32) :
    DoubleToInt32 (.finite q) % (2 ^ w : Int) = truncRat q % (2 ^ w : Int) := by
  have hdvd : (2 ^ w : Int) ∣ (2 ^ 32 : Int) := pow_dvd_pow 2 hw
  simp only [DoubleToInt32]
  split
  · rw [Int.emod_emod_of_dvd _ hdvd]
  · rw [Int.sub_emod, Int.emod_emod_of_dvd _ hdvd,
      Int.emod_eq_zero_of_dvd hdvd, sub_zero,
      Int.emod_emod_of_dvd _ dvd_rfl]

theorem DoubleToInt32_range (x : JSNumber) :
    -2 ^ 31 ≤ DoubleToInt32 x ∧ DoubleToInt32 x < 2 ^ 31 := by
  cases x with
  | nonFinite => simp [DoubleToInt32]
  | finite q =>
    simp only [DoubleToInt32]
    have hpos : (0 : Int) < 2 ^ 32 := by positivity
    have h1 := Int.emod_nonneg (truncRat q) (ne_of_gt hpos)
    have h2 := Int.emod_lt_of_pos (truncRat q) hpos
    split <;> omega

theorem toSigned32_toUnsigned32 (i : Int) (h1 : -2 ^ 31 ≤ i)
    (h2 : i < 2 ^ 31) : toSigned 32 (toUnsigned 32 i) = i := by
  simp only [toSigned, toUnsigned]
  have hpos : (0 : Int) < 2 ^ 32 := by positivity
  have h3 := Int.emod_nonneg i (ne_of_gt hpos)
  have h4 := Int.emod_lt_of_pos i hpos
  have h5 : i % 2 ^ 32 = i ∨ i % 2 ^ 32 = i + 2 ^ 32 := by omega
  split <;> omega

/-- Whether a kind input is within the domain the source can receive: for
float64 the double bit pattern has 64 bits; the other kinds accept every
value of their model type. -/
def KindInputWF : (k : DataViewKind) → KindInput k → Prop
  | .Float64, x => x < 2 ^ 64
  | _, _ => True

/-- The value the round-trip property of the spec predicts a same-order
read returns after a write, per kind, following the narrowing described in
the spec (section 4.3 step 5) composed with the read-side interpretation
(section 4.2 step 6): integer kinds reinterpret the low-order bits of the
ToInt32/ToUint32 truncation with the kind signedness, float32 rounds to the
nearest single (returned widened to a double), float64 is returned as
stored, and the 64-bit kinds reinterpret the low 64 bits of the
two's-complement pattern per kind signedness. -/
def specNarrow : (k : DataViewKind) → KindInput k → KindOutput k
  | .Int8, x => toSigned 8 (toUnsigned 8 (DoubleToInt32 x))
  | .Uint8, x => DoubleToUint32 x % 2 ^ 8
  | .Int16, x => toSigned 16 (toUnsigned 16 (DoubleToInt32 x))
  | .Uint16, x => DoubleToUint32 x % 2 ^ 16
  | .Int32, x => DoubleToInt32 x
  | .Uint32, x => DoubleToUint32 x
  | .Float32, x => widenF32toF64 (roundF64toF32 x)
  | .Float64, x => x
  | .BigInt64, x => toSigned 64 (toUnsigned 64 x)
  | .BigUint64, x => toUnsigned 64 x

/-- Boxing the narrowed pattern recovers exactly the value predicted by the
spec narrowing. -/
theorem AllocateResult_convert (k : DataViewKind) (x : KindInput k)
    (hx : KindInputWF k x) :
    AllocateResult k (DataViewConvertValue k x) = specNarrow k x := by
  cases k with
  | Int32 =>
    show toSigned 32 (toUnsigned 32 (DoubleToInt32 x)) = DoubleToInt32 x
    have := DoubleToInt32_range x
    exact toSigned32_toUnsigned32 _ this.1 this.2
  | Float64 =>
    show (x : Nat) % 2 ^ 64 = x
    exact Nat.mod_eq_of_lt hx
  | _ => rfl

theorem GetViewValuePattern_rangeError_iff (k : DataViewKind)
    (host le : Bool) (buffer : ArrayBuffer) (dv : JSDataView) (i : Nat)
    (m : String) (hneut : buffer.was_neutered = false) (hi : i < 2 ^ 64)
    (hL : dv.byte_length < 2 ^ 64) :
    GetViewValuePattern host buffer dv i le m k.size =
        .error (.rangeError .kInvalidDataViewAccessorOffset) ↔
      (i + k.size > dv.byte_length ∨ 2 ^ 64 ≤ i + k.size) := by
  have hiff := boundsCheck_iff i k.size dv.byte_length hi (kindSize_pos k)
    (by have := kindSize_le_eight k; omega) hL
  rw [GetViewValuePattern]
  simp only [hneut, Bool.false_eq_true, if_false]
  rw [← hiff]
  split
  case isTrue h => exact iff_of_true rfl h
  case isFalse h => exact iff_of_false (by simp) h

theorem SetViewValueCore_rangeError_iff (k : DataViewKind)
    (host le : Bool) (buffer : ArrayBuffer) (dv : JSDataView)
    (i pattern : Nat) (m : String) (hneut : buffer.was_neutered = false)
    (hi : i < 2 ^ 64) (hL : dv.byte_length < 2 ^ 64) :
    SetViewValueCore host buffer dv i le pattern k.size m =
        .error (.rangeError .kInvalidDataViewAccessorOffset) ↔
      (i + k.size > dv.byte_length ∨ 2 ^ 64 ≤ i + k.size) := by
  have hiff := boundsCheck_iff i k.size dv.byte_length hi (kindSize_pos k)
    (by have := kindSize_le_eight k; omega) hL
  rw [SetViewValueCore]
  simp only [hneut, Bool.false_eq_true, if_false]
  rw [← hiff]
  split
  case isTrue h => exact iff_of_true rfl h
  case isFalse h => exact iff_of_false (by simp) h

/-! ## Claim theorems -/

/-- C1: For every view and every numeric kind T, a read or write access
with converted index i raises a RangeError if and only if i + sizeof(T)
exceeds the view byte_length or the sum overflows size_t; in particular,
for a view of length L, access at index L - sizeof(T) succeeds and access
at index L - sizeof(T) + 1 raises a RangeError, and an overflowing sum
never silently passes the bounds check. -/
theorem C1_access_bounds :
    (∀ (k : DataViewKind) (host le : Bool) (buffer : ArrayBuffer)
       (dv : JSDataView) (i : Nat) (m : String),
       buffer.was_neutered = false → i < 2 ^ 64 → dv.byte_length < 2 ^ 64 →
       (GetViewValuePattern host buffer dv i le m k.size =
           .error (.rangeError .kInvalidDataViewAccessorOffset) ↔
         (i + k.size > dv.byte_length ∨ 2 ^ 64 ≤ i + k.size))) ∧
    (∀ (k : DataViewKind) (host le : Bool) (buffer : ArrayBuffer)
       (dv : JSDataView) (i pattern : Nat) (m : String),
       buffer.was_neutered = false → i < 2 ^ 64 → dv.byte_length < 2 ^ 64 →
       (SetViewValueCore host buffer dv i le pattern k.size m =
           .error (.rangeError .kInvalidDataViewAccessorOffset) ↔
         (i + k.size > dv.byte_length ∨ 2 ^ 64 ≤ i + k.size))) ∧
    (∀ (k : DataViewKind) (host le : Bool) (buffer : ArrayBuffer)
       (dv : JSDataView) (m : String),
       buffer.was_neutered = false → k.size ≤ dv.byte_length →
       dv.byte_length < 2 ^ 64 →
       (∃ p, GetViewValuePattern host buffer dv (dv.byte_length - k.size)
           le m k.size = .ok p) ∧
       GetViewValuePattern host buffer dv (dv.byte_length - k.size + 1)
           le m k.size =
         .error (.rangeError .kInvalidDataViewAccessorOffset)) := by
  refine ⟨?_, ?_, ?_⟩
  · intro k host le buffer dv i m hneut hi hL
    exact GetViewValuePattern_rangeError_iff k host le buffer dv i m
      hneut hi hL
  · intro k host le buffer dv i pattern m hneut hi hL
    exact SetViewValueCore_rangeError_iff k host le buffer dv i pattern m
      hneut hi hL
  · intro k host le buffer dv m hneut hsz hL
    constructor
    · exact ⟨_, GetViewValuePattern_ok host le buffer dv
        (dv.byte_length - k.size) m k.size hneut
        (by rw [Nat.sub_add_cancel hsz]) hL⟩
    · have hpos := kindSize_pos k
      exact (GetViewValuePattern_rangeError_iff k host le buffer dv
        (dv.byte_length - k.size + 1) m hneut (by omega) hL).mpr (by omega)

/-- Witness for C1 on a concrete 4-byte view: the 16-bit read at index 3
is out of bounds, the write at index 1 is in bounds, and the boundary
indices behave as stated. -/
theorem C1_access_bounds_witness :
    (GetViewValuePattern true ⟨[9, 8, 7, 6], false⟩ ⟨0, 4⟩ 3 false "m" 2 =
        .error (.rangeError .kInvalidDataViewAccessorOffset) ↔
      (3 + 2 > 4 ∨ 2 ^ 64 ≤ 3 + 2)) ∧
    (SetViewValueCore true ⟨[9, 8, 7, 6], false⟩ ⟨0, 4⟩ 1 false 513 2 "m" =
        .error (.rangeError .kInvalidDataViewAccessorOffset) ↔
      (1 + 2 > 4 ∨ 2 ^ 64 ≤ 1 + 2)) ∧
    ((∃ p, GetViewValuePattern true ⟨[9, 8, 7, 6], false⟩ ⟨0, 4⟩ (4 - 2)
        false "m" 2 = .ok p) ∧
      GetViewValuePattern true ⟨[9, 8, 7, 6], false⟩ ⟨0, 4⟩ (4 - 2 + 1)
          false "m" 2 =
        .error (.rangeError .kInvalidDataViewAccessorOffset)) := by
  refine ⟨?_, ?_, ?_⟩
  · exact C1_access_bounds.1 .Int16 true false ⟨[9, 8, 7, 6], false⟩ ⟨0, 4⟩
      3 "m" rfl (by decide) (by decide)
  · exact C1_access_bounds.2.1 .Int16 true false ⟨[9, 8, 7, 6], false⟩
      ⟨0, 4⟩ 1 513 "m" rfl (by decide) (by decide)
  · exact C1_access_bounds.2.2 .Int16 true false ⟨[9, 8, 7, 6], false⟩
      ⟨0, 4⟩ "m" rfl (by decide) (by decide)

/-- C2: Against a detached buffer every read and write raises the
detached-operation TypeError; the flag is consulted on the call itself
(the same view succeeds on the attached state and fails on the detached
state reached afterwards), while the byteLength and byteOffset accessors
keep returning the recorded fields unchanged for every buffer state. -/
theorem C2_detached_buffer :
    (∀ (host le : Bool) (buffer : ArrayBuffer) (dv : JSDataView)
       (i : Nat) (m : String) (size : Nat),
       buffer.was_neutered = true →
       GetViewValuePattern host buffer dv i le m size =
         .error (.typeError (.kDetachedOperation m))) ∧
    (∀ (host le : Bool) (buffer : ArrayBuffer) (dv : JSDataView)
       (i pattern : Nat) (m : String) (size : Nat),
       buffer.was_neutered = true →
       SetViewValueCore host buffer dv i le pattern size m =
         .error (.typeError (.kDetachedOperation m))) ∧
    (∀ (host le : Bool) (buffer : ArrayBuffer) (dv : JSDataView)
       (i : Nat) (m : String) (size : Nat),
       buffer.was_neutered = false → i + size ≤ dv.byte_length →
       dv.byte_length < 2 ^ 64 →
       (∃ p, GetViewValuePattern host buffer dv i le m size = .ok p) ∧
       GetViewValuePattern host ⟨buffer.backing_store, true⟩ dv i le m
           size =
         .error (.typeError (.kDetachedOperation m))) ∧
    (∀ (buffer : ArrayBuffer) (dv : JSDataView),
       DataViewPrototypeGetByteLength buffer dv = dv.byte_length ∧
       DataViewPrototypeGetByteOffset buffer dv = dv.byte_offset) := by
  have hget : ∀ (host le : Bool) (buffer : ArrayBuffer) (dv : JSDataView)
      (i : Nat) (m : String) (size : Nat), buffer.was_neutered = true →
      GetViewValuePattern host buffer dv i le m size =
        .error (.typeError (.kDetachedOperation m)) := by
    intro host le buffer dv i m size hneut
    rw [GetViewValuePattern]
    simp [hneut]
  refine ⟨hget, ?_, ?_, ?_⟩
  · intro host le buffer dv i pattern m size hneut
    rw [SetViewValueCore]
    simp [hneut]
  · intro host le buffer dv i m size hneut hbound hL
    exact ⟨⟨_, GetViewValuePattern_ok host le buffer dv i m size hneut
        hbound hL⟩,
      hget host le ⟨buffer.backing_store, true⟩ dv i m size rfl⟩
  · intro buffer dv
    exact ⟨rfl, rfl⟩

/-- Witness for C2 on a concrete detached buffer and a concrete
attach-then-detach sequence. -/
theorem C2_detached_buffer_witness :
    (GetViewValuePattern true ⟨[5, 6], true⟩ ⟨0, 2⟩ 0 false "g" 1 =
      .error (.typeError (.kDetachedOperation "g"))) ∧
    (SetViewValueCore true ⟨[5, 6], true⟩ ⟨0, 2⟩ 0 false 7 1 "s" =
      .error (.typeError (.kDetachedOperation "s"))) ∧
    ((∃ p, GetViewValuePattern true ⟨[5, 6], false⟩ ⟨0, 2⟩ 0 false "g" 1 =
        .ok p) ∧
      GetViewValuePattern true
          ⟨(⟨[5, 6], false⟩ : ArrayBuffer).backing_store, true⟩ ⟨0, 2⟩ 0
          false "g" 1 =
        .error (.typeError (.kDetachedOperation "g"))) ∧
    (DataViewPrototypeGetByteLength ⟨[5, 6], true⟩ ⟨0, 2⟩ = 2 ∧
      DataViewPrototypeGetByteOffset ⟨[5, 6], true⟩ ⟨0, 2⟩ = 0) :=
  ⟨C2_detached_buffer.1 true false ⟨[5, 6], true⟩ ⟨0, 2⟩ 0 "g" 1 rfl,
   C2_detached_buffer.2.1 true false ⟨[5, 6], true⟩ ⟨0, 2⟩ 0 7 "s" 1 rfl,
   C2_detached_buffer.2.2.1 true false ⟨[5, 6], false⟩ ⟨0, 2⟩ 0 "g" 1 rfl
     (by decide) (by decide),
   C2_detached_buffer.2.2.2 ⟨[5, 6], true⟩ ⟨0, 2⟩⟩

/-- C3: For every numeric kind T, view, in-bounds index, value and order
flag, a set followed by a get at the same index with the same flag on an
attached buffer succeeds and returns the per-kind narrowing of the value
(on any host byte order). -/
theorem C3_set_get_roundtrip (k : DataViewKind) (host le : Bool)
    (buffer : ArrayBuffer) (dv : JSDataView) (i : Nat) (x : KindInput k)
    (m m' : String) (hx : KindInputWF k x)
    (hneut : buffer.was_neutered = false)
    (hbound : i + k.size ≤ dv.byte_length)
    (hinv : dv.byte_offset + dv.byte_length ≤ buffer.byte_length)
    (hL : dv.byte_length < 2 ^ 64) :
    ∃ buffer2, dataViewSet k host buffer dv i le x m = .ok buffer2 ∧
      dataViewGet k host buffer2 dv i le m' = .ok (specNarrow k x) := by
  obtain ⟨buffer2, hset, hget⟩ := get_after_set host le buffer dv i
    (DataViewConvertValue k x) k.size m m' hneut hbound hinv hL
    (DataViewConvertValue_lt k x)
  refine ⟨buffer2, hset, ?_⟩
  rw [dataViewGet, hget, Except.map, AllocateResult_convert k x hx]

/-- Witness for C3: writing 300 as Uint8 into a one-byte view and reading
it back yields the spec narrowing of 300. -/
theorem C3_set_get_roundtrip_witness :
    ∃ buffer2,
      dataViewSet .Uint8 true ⟨[9], false⟩ ⟨0, 1⟩ 0 false
          (JSNumber.finite 300) "s" = .ok buffer2 ∧
      dataViewGet .Uint8 true buffer2 ⟨0, 1⟩ 0 false "g" =
        .ok (specNarrow .Uint8 (JSNumber.finite 300)) :=
  C3_set_get_roundtrip .Uint8 true false ⟨[9], false⟩ ⟨0, 1⟩ 0
    (JSNumber.finite 300) "s" "g" trivial rfl (by decide) (by decide)
    (by decide)

/-- C4: With an explicit length, construction succeeds exactly when the
converted offset and offset + length fit in the buffer current byte
length; an excessive offset raises the invalid-offset RangeError, an
excessive length the invalid-length RangeError; on success the view
records exactly the given offset and length (the constructor reads the
buffer and never writes it). -/
theorem C4_construction_bounds (buffer : ArrayBuffer) (o n : Nat) :
    ((∃ dv, DataViewConstructor buffer o (some n) = .ok dv) ↔
      (o ≤ buffer.byte_length ∧ o + n ≤ buffer.byte_length)) ∧
    (buffer.byte_length < o →
      DataViewConstructor buffer o (some n) =
        .error (.rangeError .kInvalidOffset)) ∧
    (o ≤ buffer.byte_length → buffer.byte_length < o + n →
      DataViewConstructor buffer o (some n) =
        .error (.rangeError .kInvalidDataViewLength)) ∧
    (o + n ≤ buffer.byte_length →
      DataViewConstructor buffer o (some n) = .ok ⟨o, n⟩) := by
  refine ⟨?_, ?_, ?_, ?_⟩
  · constructor
    · rintro ⟨dv, hdv⟩
      rw [DataViewConstructor] at hdv
      by_cases h1 : o > buffer.byte_length
      · simp [h1] at hdv
      · by_cases h2 : o + n > buffer.byte_length
        · simp [h1, h2] at hdv
        · omega
    · rintro ⟨h1, h2⟩
      refine ⟨⟨o, n⟩, ?_⟩
      rw [DataViewConstructor]
      simp [Nat.not_lt.mpr h1, Nat.not_lt.mpr h2]
  · intro h
    rw [DataViewConstructor]
    simp [h]
  · intro h1 h2
    rw [DataViewConstructor]
    simp [Nat.not_lt.mpr h1, h2]
  · intro h
    rw [DataViewConstructor]
    simp [Nat.not_lt.mpr (by omega : o ≤ buffer.byte_length),
      Nat.not_lt.mpr h]

/-- Witness for C4 on a three-byte buffer with offset 1 and length 2. -/
theorem C4_construction_bounds_witness :
    ((∃ dv, DataViewConstructor ⟨[4, 5, 6], false⟩ 1 (some 2) = .ok dv) ↔
      (1 ≤ (⟨[4, 5, 6], false⟩ : ArrayBuffer).byte_length ∧
        1 + 2 ≤ (⟨[4, 5, 6], false⟩ : ArrayBuffer).byte_length)) ∧
    DataViewConstructor ⟨[4, 5, 6], false⟩ 1 (some 2) = .ok ⟨1, 2⟩ :=
  ⟨(C4_construction_bounds ⟨[4, 5, 6], false⟩ 1 2).1,
   (C4_construction_bounds ⟨[4, 5, 6], false⟩ 1 2).2.2.2 (by decide)⟩

theorem toUnsigned_congr {w : Nat} {i j : Int}
    (h : i % (2 ^ w : Int) = j % (2 ^ w : Int)) :
    toUnsigned w i = toUnsigned w j := by
  unfold toUnsigned
  rw [h]

theorem toNat_emod (a : Int) (n : Nat) (h : 0 ≤ a) :
    a.toNat % n = (a % (n : Int)).toNat := by
  obtain ⟨b, rfl⟩ : ∃ b : Nat, a = (b : Int) :=
    ⟨a.toNat, (Int.toNat_of_nonneg h).symm⟩
  norm_cast

theorem DoubleToUint32_mod (q : ℚ) (w : Nat) (hw : w ≤ 32) :
    DoubleToUint32 (.finite q) % 2 ^ w = toUnsigned w (truncRat q) := by
  have hpos : (0 : Int) < 2 ^ 32 := by positivity
  have h0 : 0 ≤ truncRat q % (2 ^ 32 : Int) :=
    Int.emod_nonneg _ (ne_of_gt hpos)
  simp only [DoubleToUint32, toUnsigned]
  rw [toNat_emod _ (2 ^ w) h0]
  congr 1
  push_cast
  have h32 : (4294967296 : Int) = 2 ^ 32 := by norm_num
  rw [h32, Int.emod_emod_of_dvd _ (pow_dvd_pow 2 hw)]

/-- C5: The converted value is narrowed to exactly sizeof(T)*8 bits with
the per-kind semantics: the 8/16/32-bit kinds agree with direct
truncate-then-take-low-order-bits arithmetic on finite values and produce
the zero pattern on non-finite values, float64 stores the double pattern
as is, float32 stores the rounded single pattern, and the 64-bit kinds
store the low 64 bits of the two's-complement representation (identically
for the signed and the unsigned kind). -/
theorem C5_value_narrowing :
    (∀ (k : DataViewKind) (x : KindInput k),
      DataViewConvertValue k x < 2 ^ (8 * k.size)) ∧
    (∀ q : ℚ,
      DataViewConvertValue .Int8 (JSNumber.finite q) =
        toUnsigned 8 (truncRat q) ∧
      DataViewConvertValue .Int16 (JSNumber.finite q) =
        toUnsigned 16 (truncRat q) ∧
      DataViewConvertValue .Int32 (JSNumber.finite q) =
        toUnsigned 32 (truncRat q) ∧
      DataViewConvertValue .Uint8 (JSNumber.finite q) =
        toUnsigned 8 (truncRat q) ∧
      DataViewConvertValue .Uint16 (JSNumber.finite q) =
        toUnsigned 16 (truncRat q) ∧
      DataViewConvertValue .Uint32 (JSNumber.finite q) =
        toUnsigned 32 (truncRat q)) ∧
    (DataViewConvertValue .Int8 JSNumber.nonFinite = 0 ∧
      DataViewConvertValue .Int16 JSNumber.nonFinite = 0 ∧
      DataViewConvertValue .Int32 JSNumber.nonFinite = 0 ∧
      DataViewConvertValue .Uint8 JSNumber.nonFinite = 0 ∧
      DataViewConvertValue .Uint16 JSNumber.nonFinite = 0 ∧
      DataViewConvertValue .Uint32 JSNumber.nonFinite = 0) ∧
    (∀ x : Nat, x < 2 ^ 64 → DataViewConvertValue .Float64 x = x) ∧
    (∀ x : Nat, DataViewConvertValue .Float32 x = roundF64toF32 x) ∧
    (∀ x : Int,
      DataViewConvertValue .BigInt64 x = toUnsigned 64 x ∧
      DataViewConvertValue .BigUint64 x = toUnsigned 64 x) := by
  refine ⟨DataViewConvertValue_lt, ?_, ?_, ?_, ?_, ?_⟩
  · intro q
    refine ⟨?_, ?_, ?_, ?_, ?_, ?_⟩
    · exact toUnsigned_congr (DoubleToInt32_emod q 8 (by norm_num))
    · exact toUnsigned_congr (DoubleToInt32_emod q 16 (by norm_num))
    · exact toUnsigned_congr (DoubleToInt32_emod q 32 (by norm_num))
    · exact DoubleToUint32_mod q 8 (by norm_num)
    · exact DoubleToUint32_mod q 16 (by norm_num)
    · show DoubleToUint32 (.finite q) = toUnsigned 32 (truncRat q)
      have := DoubleToUint32_mod q 32 (by norm_num)
      rwa [Nat.mod_eq_of_lt] at this
      show DoubleToUint32 (.finite q) < 2 ^ 32
      have h := DataViewConvertValue_lt .Uint32 (JSNumber.finite q)
      simpa [DataViewConvertValue, DataViewKind.size] using h
  · exact ⟨by decide, by decide, by decide, by decide, by decide, by decide⟩
  · intro x hx
    exact Nat.mod_eq_of_lt hx
  · intro x
    rfl
  · intro x
    exact ⟨rfl, rfl⟩

/-- Witness for C5 at the finite value 257.5 and a 64-bit pattern. -/
theorem C5_value_narrowing_witness :
    DataViewConvertValue .Int8 (JSNumber.finite (515 / 2)) =
      toUnsigned 8 (truncRat (515 / 2)) ∧
    DataViewConvertValue .Float64 3 = 3 :=
  ⟨(C5_value_narrowing.2.1 (515 / 2)).1,
   C5_value_narrowing.2.2.2.1 3 (by decide)⟩

theorem requestedOrderBytes (h le : Bool) (size p : Nat) :
    (if NeedToFlipBytes h le then FlipBytes (nativeOfPattern h size p)
     else CopyBytes (nativeOfPattern h size p)) =
      (if le then leBytes size p else (leBytes size p).reverse) := by
  cases h <;> cases le <;>
    simp [NeedToFlipBytes, nativeOfPattern, FlipBytes, CopyBytes]

theorem requestedOrderVal (h le : Bool) (src : List Nat) :
    patternOfNative h
        (if NeedToFlipBytes h le then FlipBytes src else CopyBytes src) =
      (if le then leVal src else leVal src.reverse) := by
  cases h <;> cases le <;>
    simp [NeedToFlipBytes, patternOfNative, FlipBytes, CopyBytes]

/-- C6: The bytes are reversed exactly when the requested little-endian
flag differs from the host order (the copy is straight otherwise), and the
host order parameter influences reads and writes only through that single
decision: the observable result of every read and write is the same on a
little-endian and a big-endian host, and the bytes that reach memory are
exactly the requested-order serialization. -/
theorem C6_byte_order :
    (∀ host le : Bool, NeedToFlipBytes host le = (le != host)) ∧
    (∀ bs : List Nat, CopyBytes bs = bs ∧ FlipBytes bs = bs.reverse) ∧
    (∀ (host le : Bool) (size p : Nat),
      (if NeedToFlipBytes host le then
        FlipBytes (nativeOfPattern host size p)
      else CopyBytes (nativeOfPattern host size p)) =
        (if le then leBytes size p else (leBytes size p).reverse)) ∧
    (∀ (h1 h2 le : Bool) (buffer : ArrayBuffer) (dv : JSDataView)
       (i : Nat) (m : String) (size : Nat),
      GetViewValuePattern h1 buffer dv i le m size =
        GetViewValuePattern h2 buffer dv i le m size) ∧
    (∀ (h1 h2 le : Bool) (buffer : ArrayBuffer) (dv : JSDataView)
       (i pattern size : Nat) (m : String),
      SetViewValueCore h1 buffer dv i le pattern size m =
        SetViewValueCore h2 buffer dv i le pattern size m) := by
  refine ⟨by decide, fun bs => ⟨rfl, rfl⟩, requestedOrderBytes, ?_, ?_⟩
  · intro h1 h2 le buffer dv i m size
    unfold GetViewValuePattern
    split
    · rfl
    · split
      · rfl
      · simp only [requestedOrderVal]
  · intro h1 h2 le buffer dv i pattern size m
    unfold SetViewValueCore
    split
    · rfl
    · split
      · rfl
      · simp only [requestedOrderBytes]

/-- C7: In a write, the value conversion protocol runs right after the
index conversion and strictly before the neutering and bounds checks: a
failing index conversion short-circuits it; its state effect is observable
in every outcome once the index converted; its error preempts both later
checks; and when it succeeds the remaining work is exactly the core write
on the conversion result. -/
theorem C7_conversion_ordering {α : Type} :
    (∀ (host le : Bool) (buffer : ArrayBuffer) (dv : JSDataView)
       (toIndex : Nat → Nat × Except JSError Nat)
       (convertInput : Nat → Nat × Except JSError α)
       (convertValue : α → Nat) (size : Nat) (m : String)
       (s0 s1 : Nat) (e : JSError),
       toIndex s0 = (s1, .error e) →
       SetViewValueTop host buffer dv toIndex le convertInput convertValue
         size m s0 = (s1, .error e)) ∧
    (∀ (host le : Bool) (buffer : ArrayBuffer) (dv : JSDataView)
       (toIndex : Nat → Nat × Except JSError Nat)
       (convertInput : Nat → Nat × Except JSError α)
       (convertValue : α → Nat) (size : Nat) (m : String)
       (s0 s1 i : Nat),
       toIndex s0 = (s1, .ok i) →
       SetViewValueTop host buffer dv toIndex le convertInput convertValue
           size m s0 =
         SetViewValueWithConversion host buffer dv i le convertInput
           convertValue size m s1) ∧
    (∀ (host le : Bool) (buffer : ArrayBuffer) (dv : JSDataView)
       (i : Nat) (convertInput : Nat → Nat × Except JSError α)
       (convertValue : α → Nat) (size : Nat) (m : String) (s0 : Nat),
       (SetViewValueWithConversion host buffer dv i le convertInput
         convertValue size m s0).1 = (convertInput s0).1) ∧
    (∀ (host le : Bool) (buffer : ArrayBuffer) (dv : JSDataView)
       (i : Nat) (convertInput : Nat → Nat × Except JSError α)
       (convertValue : α → Nat) (size : Nat) (m : String)
       (s0 s1 : Nat) (e : JSError),
       convertInput s0 = (s1, .error e) →
       SetViewValueWithConversion host buffer dv i le convertInput
         convertValue size m s0 = (s1, .error e)) ∧
    (∀ (host le : Bool) (buffer : ArrayBuffer) (dv : JSDataView)
       (i : Nat) (convertInput : Nat → Nat × Except JSError α)
       (convertValue : α → Nat) (size : Nat) (m : String)
       (s0 s1 : Nat) (a : α),
       convertInput s0 = (s1, .ok a) →
       SetViewValueWithConversion host buffer dv i le convertInput
           convertValue size m s0 =
         (s1, SetViewValueCore host buffer dv i le (convertValue a) size
           m)) := by
  refine ⟨?_, ?_, ?_, ?_, ?_⟩
  · intro host le buffer dv toIndex convertInput convertValue size m
      s0 s1 e h
    rw [SetViewValueTop, h]
  · intro host le buffer dv toIndex convertInput convertValue size m
      s0 s1 i h
    rw [SetViewValueTop, h]
  · intro host le buffer dv i convertInput convertValue size m s0
    rw [SetViewValueWithConversion]
    rcases hc : convertInput s0 with ⟨s1, r⟩
    cases r <;> simp
  · intro host le buffer dv i convertInput convertValue size m s0 s1 e h
    rw [SetViewValueWithConversion, h]
  · intro host le buffer dv i convertInput convertValue size m s0 s1 a h
    rw [SetViewValueWithConversion, h]

/-- Witness for C7 with a concrete failing conversion against a detached
buffer: the conversion error and its state effect win over the
detached-buffer TypeError. -/
theorem C7_conversion_ordering_witness :
    SetViewValueWithConversion true ⟨[0], true⟩ ⟨0, 1⟩ 0 false
        (fun s => (s + 7, Except.error (JSError.typeError
          (.kDetachedOperation "coercion"))))
        (fun a : Nat => a) 1 "m" 5 =
      (12, .error (.typeError (.kDetachedOperation "coercion"))) :=
  C7_conversion_ordering.2.2.2.1 true false ⟨[0], true⟩ ⟨0, 1⟩ 0
    (fun s => (s + 7, Except.error (JSError.typeError
      (.kDetachedOperation "coercion"))))
    (fun a : Nat => a) 1 "m" 5 12 _ rfl

/-- C8: Construction never consults the detachment flag: the result over a
detached buffer coincides with the result over the same attached buffer,
and no construction outcome is a TypeError (in particular not the
detached-operation TypeError). -/
theorem C8_construction_skips_detach_check :
    (∀ (store : List Nat) (o : Nat) (l : Option Nat),
      DataViewConstructor ⟨store, true⟩ o l =
        DataViewConstructor ⟨store, false⟩ o l) ∧
    (∀ (buffer : ArrayBuffer) (o : Nat) (l : Option Nat)
       (t : MessageTemplate),
      DataViewConstructor buffer o l ≠ .error (.typeError t)) := by
  constructor
  · intro store o l
    rfl
  · intro buffer o l t
    cases l with
    | none =>
      rw [DataViewConstructor]
      split <;> simp
    | some n =>
      rw [DataViewConstructor]
      split
      · simp
      · split <;> simp

/-- Witness for C8: constructing over a concrete detached buffer succeeds
with no TypeError. -/
theorem C8_construction_skips_detach_check_witness :
    DataViewConstructor ⟨[1, 2], true⟩ 1 (some 1) =
      DataViewConstructor ⟨[1, 2], false⟩ 1 (some 1) ∧
    DataViewConstructor ⟨[1, 2], true⟩ 1 (some 1) ≠
      .error (.typeError (.kDetachedOperation "DataView")) :=
  ⟨C8_construction_skips_detach_check.1 [1, 2] 1 (some 1),
   C8_construction_skips_detach_check.2 ⟨[1, 2], true⟩ 1 (some 1)
     (.kDetachedOperation "DataView")⟩

/-- C9: On a fresh eight-byte view, writing the big integer -1 with the
Int64 setter stores the all-ones 64-bit two's-complement pattern, and the
Uint64 getter reads it back as the exact big integer 2^64 - 1, on either
host byte order. -/
theorem C9_int64_uint64_allbits :
    ∀ host : Bool,
      DataViewPrototypeSet .BigInt64 host ⟨List.replicate 8 0, false⟩
          ⟨0, 8⟩ 0 (-1 : Int) false =
        .ok ⟨List.replicate 8 255, false⟩ ∧
      DataViewPrototypeGet .BigUint64 host ⟨List.replicate 8 255, false⟩
          ⟨0, 8⟩ 0 false =
        .ok (2 ^ 64 - 1) := by
  intro host
  cases host <;> exact ⟨by decide, by decide⟩

/-- C10: When a setter fails on a detached buffer, the operation name in
the TypeError is the getter name "DataView.prototype.get<Type>" (the
DATA_VIEW_PROTOTYPE_SET macro passes the get string), which differs from
the setter own name. -/
theorem C10_setter_reports_getter_name (k : DataViewKind)
    (host le : Bool) (buffer : ArrayBuffer) (dv : JSDataView) (i : Nat)
    (x : KindInput k) (hneut : buffer.was_neutered = true) :
    DataViewPrototypeSet k host buffer dv i x le =
      .error (.typeError (.kDetachedOperation
        ("DataView.prototype.get" ++ k.typeName))) ∧
    "DataView.prototype.get" ++ k.typeName ≠
      "DataView.prototype.set" ++ k.typeName := by
  constructor
  · rw [DataViewPrototypeSet, dataViewSet, SetViewValueCore]
    simp [hneut]
  · cases k <;> decide

/-- Witness for C10: the Float64 setter on a detached buffer reports the
getter name. -/
theorem C10_setter_reports_getter_name_witness :
    DataViewPrototypeSet .Float64 true ⟨[], true⟩ ⟨0, 0⟩ 0 (3 : Nat)
        false =
      .error (.typeError (.kDetachedOperation
        ("DataView.prototype.get" ++ DataViewKind.Float64.typeName))) ∧
    "DataView.prototype.get" ++ DataViewKind.Float64.typeName ≠
      "DataView.prototype.set" ++ DataViewKind.Float64.typeName :=
  C10_setter_reports_getter_name .Float64 true false ⟨[], true⟩ ⟨0, 0⟩ 0
    (3 : Nat) rfl
